import Mathlib

/-!
Shallow embedding of the conversation-orchestration core of `src/backend/server.js`
(the latest revision, lines 1-1019; later copies in the repository are superseded
historical revisions of the same logic).

Text is modelled as `List Char` (JavaScript strings are sequences of Unicode code
points under the `u` flag; none of the embedded operations split surrogate pairs).
The relational store is modelled as explicit state (`DbState`); external
collaborators (Gemini completion service, OCR/file reads, JSON.parse, the
xlsx/docx encoders, Slack transport) are oracles passed in as parameters, per the
spec's scope section.  Database writes issued by the core are modelled as
succeeding, matching the spec's treatment of the persistence engine as an external
collaborator.
-/

namespace MenuAI

/-- JavaScript `\s` character class (the whitespace set used by `trim()` as well). -/
def isJsWs (c : Char) : Bool :=
  let n := c.toNat
  n = 0x20 || n = 0x09 || n = 0x0A || n = 0x0B || n = 0x0C || n = 0x0D ||
  n = 0xA0 || n = 0x1680 || (0x2000 ≤ n && n ≤ 0x200A) || n = 0x2028 ||
  n = 0x2029 || n = 0x202F || n = 0x205F || n = 0x3000 || n = 0xFEFF

/-- The code-point ranges removed by `removeEmojis` (server.js line 69):
`[\u{1F600}-\u{1F64F}]|[\u{1F300}-\u{1F5FF}]|[\u{1F680}-\u{1F6FF}]|[\u{2600}-\u{26FF}]|
[\u{2700}-\u{27BF}]|[\u{FE00}-\u{FE0F}]|[\u{1F900}-\u{1F9FF}]|[\u{1FA70}-\u{1FAFF}]|
[\u{E0020}-\u{E007F}]|[\u{2B50}]`. -/
def isEmojiChar (c : Char) : Bool :=
  let n := c.toNat
  (0x1F600 ≤ n && n ≤ 0x1F64F) || (0x1F300 ≤ n && n ≤ 0x1F5FF) ||
  (0x1F680 ≤ n && n ≤ 0x1F6FF) || (0x2600 ≤ n && n ≤ 0x26FF) ||
  (0x2700 ≤ n && n ≤ 0x27BF) || (0xFE00 ≤ n && n ≤ 0xFE0F) ||
  (0x1F900 ≤ n && n ≤ 0x1F9FF) || (0x1FA70 ≤ n && n ≤ 0x1FAFF) ||
  (0xE0020 ≤ n && n ≤ 0xE007F) || n = 0x2B50

/-- JavaScript `String.prototype.trim`: strip `\s` from both ends. -/
def jsTrim (l : List Char) : List Char :=
  (l.dropWhile isJsWs).rdropWhile isJsWs

/-- One left-to-right pass of `text.replace(/(emoji)\s*/gu, '')`, written as a
state machine so the recursion is structural: the flag is true exactly while the
scan sits inside the `\s*` tail of a match (whitespace there is consumed; any
emoji starts a new match; any other character ends the consumption). -/
def stripStep : List Char → Bool → List Char
  | [], _ => []
  | c :: cs, skipping =>
    if skipping && isJsWs c then stripStep cs true
    else if isEmojiChar c then stripStep cs true
    else c :: stripStep cs false

/-- Function `removeEmojis` (server.js lines 66-70): global replace of the emoji ranges
plus trailing whitespace, then `trim()`. -/
def removeEmojis (l : List Char) : List Char :=
  jsTrim (stripStep l false)

/-- JavaScript `str.replace(/\0/g, '')` (server.js `sanitizeStringForDB`). -/
def sanitizeStringForDB (l : List Char) : List Char :=
  l.filter (fun c => c ≠ '\x00')

/-- JavaScript `||` on string values: the left operand unless it is falsy
(the empty string; `undefined` lookups are modelled as `[]` as well). -/
def jsOr (a b : List Char) : List Char :=
  if a = [] then b else a

/-- Boolean substring test, JavaScript `String.prototype.includes`. -/
def isInfixB (pat : List Char) : List Char → Bool
  | [] => pat.isEmpty
  | c :: cs => pat.isPrefixOf (c :: cs) || isInfixB pat cs

/-- ASCII-only model of `String.prototype.toLowerCase`.  Every command phrase
searched after lowering (`統整建議`, `提供 csv`, `提供 excel`, `產出結案報告`)
contains only CJK characters, spaces and the ASCII letters c/s/v/e/x/l, and no
Unicode-only lowering (e.g. fullwidth letters, Kelvin sign) produces any of
those code points, so the ASCII mapping decides `includes` identically. -/
def jsToLowerChar (c : Char) : Char :=
  if 'A' ≤ c && c ≤ 'Z' then Char.ofNat (c.toNat + 32) else c

/-- JavaScript `text.toLowerCase().includes(cmd)`. -/
def lowerIncludes (cmd : List Char) (text : List Char) : Bool :=
  isInfixB cmd (text.map jsToLowerChar)

/-! ### Priced-tag test: `/\(\+\d+\)/.test(tag)` (server.js line 150) -/

/-- After `(` `+` and one digit: consume further digits, then require `)`. -/
def digitsThenClose : List Char → Bool
  | [] => false
  | c :: cs => if c = ')' then true else c.isDigit && digitsThenClose cs

/-- Does `\(\+\d+\)` match at the head of the string? -/
def startsPriced : List Char → Bool
  | a :: b :: c :: cs => a = '(' && b = '+' && c.isDigit && digitsThenClose cs
  | _ => false

/-- Test `/\(\+\d+\)/.test(tag)`: the pattern matches at some position. -/
def hasPricedTag : List Char → Bool
  | [] => false
  | c :: cs => startsPriced (c :: cs) || hasPricedTag cs

/-- The spec's wording of the priced-tag property: the string contains a
substring matching `\(\+\d+\)`. -/
def pricedSpec (t : List Char) : Prop :=
  ∃ ds : List Char, ds ≠ [] ∧ (∀ c ∈ ds, c.isDigit = true) ∧
    ('(' :: '+' :: ds ++ [')']) <:+: t

/-! ### The JSON-search regex of `generateExcelBuffer` (server.js line 135):
`structuredText.match(/```json\s*([\s\S]*?)\s*```|(\[[\s\S]*\])/)`.
`String.match` without the `g` flag returns the leftmost match; at a given
start position the first alternative is preferred.  The string handed to
`JSON.parse` is `jsonMatch[1] || jsonMatch[2]`, i.e. whichever group captured. -/

/-- The opening tag of the first alternative. -/
def fenceJsonTag : List Char := "```json".data

/-- Content before the first occurrence of a closing triple backtick, or `none`
if there is no closing fence in the remainder. -/
def beforeFirstFence : List Char → Option (List Char)
  | [] => none
  | c :: cs =>
    if ("```".data).isPrefixOf (c :: cs) then some []
    else (beforeFirstFence cs).map (c :: ·)

/-- Try the first alternative ```` ```json\s*([\s\S]*?)\s*``` ```` at this start
position.  The greedy leading `\s*`, the lazy body and the greedy trailing
`\s*` combine so that the capture is the content up to the first closing fence
with surrounding whitespace stripped. -/
def tryAlt1 (s : List Char) : Option (List Char) :=
  if fenceJsonTag.isPrefixOf s then
    match beforeFirstFence ((s.drop 7).dropWhile isJsWs) with
    | some pre => some (pre.rdropWhile isJsWs)
    | none => none
  else none

/-- Try the second alternative `(\[[\s\S]*\])` at this start position: a `[`
here, running greedily to the last `]` anywhere in the remainder; the capture
includes both brackets. -/
def tryAlt2 : List Char → Option (List Char)
  | [] => none
  | c :: cs =>
    if c = '[' then
      match cs.reverse.dropWhile (fun d => d ≠ ']') with
      | [] => none
      | d :: ds => some ('[' :: (d :: ds).reverse)
    else none

/-- The capture selected by the regex: scan start positions left to right and
take the first position where either alternative matches, alternative 1
preferred at equal positions. -/
def jsonMatchCapture : List Char → Option (List Char)
  | [] => none
  | c :: cs =>
    match tryAlt1 (c :: cs) with
    | some cap => some cap
    | none =>
      match tryAlt2 (c :: cs) with
      | some cap => some cap
      | none => jsonMatchCapture cs

/-- Modelled from the spec: the search for a fenced block tagged as JSON,
irrespective of any bracket span (first alternative alone, leftmost). -/
def fenceSearch : List Char → Option (List Char)
  | [] => none
  | c :: cs =>
    match tryAlt1 (c :: cs) with
    | some cap => some cap
    | none => fenceSearch cs

/-- Modelled from the spec: the search for the first `[...]` span alone
(second alternative alone, leftmost). -/
def bracketSearch : List Char → Option (List Char)
  | [] => none
  | c :: cs =>
    match tryAlt2 (c :: cs) with
    | some cap => some cap
    | none => bracketSearch cs

/-- Modelled from the spec: "search for a fenced block tagged as JSON; if
absent, search for the first top-level `[...]` span" — the fenced search takes
absolute priority over the bracket search. -/
def specCapture (s : List Char) : Option (List Char) :=
  match fenceSearch s with
  | some cap => some cap
  | none => bracketSearch s

/-- True when no bracket-span match begins strictly before the first fenced
match (in particular, trivially true when the scan of the actual regex ends in
a fenced match or no match at all). -/
def noBracketBeforeFence : List Char → Bool
  | [] => true
  | c :: cs =>
    if (tryAlt1 (c :: cs)).isSome then true
    else (tryAlt2 (c :: cs)).isNone && noBracketBeforeFence cs

/-! ### ExportRow construction (server.js lines 140-158) -/

/-- One parsed structured item: a JSON object whose fields are looked up by
key.  A missing key and an empty-string value are indistinguishable under the
JavaScript `item[k] || ...` chains the code uses, so lookup is total with `[]`
for absent keys. -/
structure Item where
  get : String → List Char

/-- One row destined for the tabular artifact (ExportRow of the spec). -/
structure Row where
  name : List Char
  price : List Char
  taxType : List Char
  taxRate : List Char
  tags : List (List Char)
  deriving DecidableEq

/-- The twelve raw tag lookups `item[`標籤${i}`] || item[`Tag${i}`] || ''`
for i = 1..12, in order. -/
def rawTags (it : Item) : List (List Char) :=
  (List.range 12).map fun i =>
    jsOr (it.get ("標籤" ++ toString (i + 1))) (it.get ("Tag" ++ toString (i + 1)))

/-- The per-item mapping of `data.map(item => ...)`: name via `removeEmojis`
over the `|| `-chain of name keys, price via its `||` chain, hardcoded tax
fields, and twelve tag slots `pricedTags[i] || ''` where `pricedTags` collects,
in order, the raw tags passing `/\(\+\d+\)/`. -/
def rowOfItem (it : Item) : Row :=
  let pricedTags := (rawTags it).filter hasPricedTag
  { name := removeEmojis (jsOr (it.get ("商品名稱(半型字)")) (jsOr (it.get ("Item")) (it.get ("品項"))))
    price := jsOr (it.get ("價格")) (it.get ("Price"))
    taxType := "TX".data
    taxRate := "0.05".data
    tags := (List.range 12).map fun i => pricedTags.getD i [] }

/-- Function `generateExcelBuffer` up to the external xlsx encoder (server.js lines
129-171): select the regex capture, hand it to `JSON.parse` (an external
collaborator, passed in as `parseItems`; `none` models a parse throw or a
parse result that is not an array of objects), map items to rows, and fail
with `none` — the caller sees no file — when there is no capture, the parse
throws, or the parsed list is empty. -/
def generateExcelRows (parseItems : List Char → Option (List Item))
    (structuredText : List Char) : Option (List Row) :=
  match jsonMatchCapture structuredText with
  | none => none
  | some js =>
    match parseItems js with
    | none => none
    | some items =>
      let data := items.map rowOfItem
      if data.length = 0 then none else some data

/-! ### Conversation history and the advice-recovery heuristic
(server.js lines 314-385, inside `generateAndSendFinalReport`) -/

/-- Sender role of a stored message (`messages.sender` is `'user'` or `'ai'`). -/
inductive Sender where
  | user : Sender
  | ai : Sender
  deriving DecidableEq

/-- One stored message row (a Turn of the spec), in `created_at` order. -/
structure Msg where
  sender : Sender
  content : List Char
  deriving DecidableEq

/-- The resummarize command phrase. -/
def summaryCmd : List Char := "統整建議".data

/-- JavaScript `content.toLowerCase().includes('統整建議')`. -/
def containsSummaryCmd (text : List Char) : Bool :=
  lowerIncludes summaryCmd text

/-- Is some message of the history a user turn carrying the command phrase? -/
def hasCmdMsg (h : List Msg) : Bool :=
  h.any fun m => m.sender = .user && containsSummaryCmd m.content

/-- The first loop of the heuristic: find the newest user turn containing the
command phrase (`lastTongZhengIndex`), and return the content of the row
immediately after it provided that row exists and its sender is `'ai'`. -/
def afterLastCmd : List Msg → Option (List Char)
  | [] => none
  | m :: rest =>
    if hasCmdMsg rest then afterLastCmd rest
    else if m.sender = .user && containsSummaryCmd m.content then
      match rest with
      | next :: _ => if next.sender = .ai then some next.content else none
      | [] => none
    else none

/-- The fallback loop: content of the newest `'ai'` row in the whole history. -/
def lastAiContent : List Msg → Option (List Char)
  | [] => none
  | m :: rest =>
    match lastAiContent rest with
    | some r => some r
    | none => if m.sender = .ai then some m.content else none

/-- Value `finalOptimizedMenuMarkdown` after both loops: the pair's text, except that
a falsy (empty) result — no pair, a non-ai successor, or an empty ai content —
falls through to the newest ai turn; `[]` when that fails too. -/
def selectFinalMarkdown (h : List Msg) : List Char :=
  let fromPair := (afterLastCmd h).getD []
  if fromPair = [] then (lastAiContent h).getD [] else fromPair

/-- JavaScript `split('\n')`. -/
def splitNl : List Char → List (List Char)
  | [] => [[]]
  | c :: cs =>
    let rest := splitNl cs
    if c = '\n' then [] :: rest
    else
      match rest with
      | r :: rs => (c :: r) :: rs
      | [] => [[c]]

/-- JavaScript `join('\n')`. -/
def joinNl : List (List Char) → List Char
  | [] => []
  | [l] => l
  | l :: ls => l ++ '\n' :: joinNl ls

/-- The heading marker opening the internal strategy table that is redacted. -/
def tableTitleIndicator : List Char := "🎯 **核心邏輯與優化重點".data

/-- The redaction loop over lines (server.js lines 350-374), with the
accumulated kept lines threaded through because the `---` case inspects the
last line already kept. -/
def stripTableLoop (acc : List (List Char)) (inTable : Bool) :
    List (List Char) → List (List Char)
  | [] => acc
  | line :: rest =>
    if isInfixB tableTitleIndicator line then stripTableLoop acc true rest
    else if inTable then
      if ("|".data).isPrefixOf (jsTrim line) then
        stripTableLoop acc true rest
      else if jsTrim line = "---".data && !acc.isEmpty &&
          "|".data.isPrefixOf (jsTrim (acc.getLast?.getD [])) then
        stripTableLoop acc true rest
      else stripTableLoop (acc ++ [line]) false rest
    else stripTableLoop (acc ++ [line]) false rest

/-- JavaScript `replace(/📸/g, '(建議附照片)')` (server.js line 375). -/
def replacePhoto : List Char → List Char
  | [] => []
  | c :: cs =>
    if c = '📸' then ("(建議附照片)".data) ++ replacePhoto cs
    else c :: replacePhoto cs

/-- The selected markdown after redaction: skip processing entirely when the
selection is falsy, otherwise strip the strategy table, re-join, `trim()`, and
replace the photo pictogram. -/
def processedMarkdown (h : List Msg) : List Char :=
  let md := selectFinalMarkdown h
  if md = [] then md
  else replacePhoto (jsTrim (joinNl (stripTableLoop [] false (splitNl md))))

/-- The placeholder substituted when no usable advice text survives
(server.js line 384), embedding the document name and a 500-character excerpt. -/
def placeholderStr (originalMenuFilename menuContentForPrompt : List Char) : List Char :=
  "[AI請注意：此處應填入根據對話歷史記錄和原始菜單分析得出的最終優化菜單建議。內容應為完整的 Markdown 格式菜單結構，包含所有主打推薦、套餐、分類品項等。請確保這是使用者最終同意的版本。原始菜單檔名：".data
    ++ originalMenuFilename ++ "，部分內容：".data
    ++ menuContentForPrompt.take 500 ++ "...]".data

/-- Value `section2Content` (server.js lines 379-385): the processed markdown when it
is truthy and does not trim to nothing, else the placeholder. -/
def section2Content (h : List Msg) (originalMenuFilename menuContent : List Char) :
    List Char :=
  let md := processedMarkdown h
  if md ≠ [] ∧ jsTrim md ≠ [] then md
  else placeholderStr originalMenuFilename menuContent

/-! ### Conversation state and the threaded-message handler
(server.js lines 537-933) -/

/-- The mutable Conversation record (the columns the core reads and writes). -/
structure Conversation where
  status : String
  menuId : Option Nat
  reportCoachName : Option (List Char)
  reportEndDate : Option (List Char)
  reportRestaurantName : Option (List Char)
  targetAOV : Option (List Char)
  targetAudience : Option (List Char)
  deriving DecidableEq

/-- Persistent state per thread: the Conversation row plus its ordered
message history. -/
structure DbState where
  conv : Conversation
  messages : List Msg
  deriving DecidableEq

/-- One history entry as sent to the completion service:
`{ role: sender === 'ai' ? 'model' : 'user', parts: [{ text }] }`. -/
structure GTurn where
  role : String
  text : List Char
  deriving DecidableEq

/-- Row-to-completion-turn mapping. -/
def toGTurn (m : Msg) : GTurn :=
  { role := if m.sender = .ai then ("model") else ("user"), text := m.content }

/-- Outward-facing actions of one handler run, in order. -/
inductive Effect where
  | postMessage (text : List Char)
  | uploadFile (filename : List Char) (rows : List Row)
  | uploadDocx (filename : List Char)
  | geminiCall (prompt : List Char) (history : List GTurn)
  | spawnReport
  deriving DecidableEq

/-- External collaborators of one handler run.  `gemini` returns `none` when
the completion call throws; `menuExtract` is the extracted document text,
`none` when the OCR/file read throws; `parseItems` is `JSON.parse` specialised
to an array of objects, `none` when parsing throws or the value has another
shape; `menuFilenameBase` is `path.parse(menu.filename).name`. -/
structure Oracles where
  gemini : List Char → List GTurn → Option (List Char)
  menuExtract : Option (List Char)
  menuFilenameBase : List Char
  parseItems : List Char → Option (List Item)

/-- Test `/^\d{4}\/\d{2}\/\d{2}$/.test(text)` (server.js line 855): a purely
syntactic shape check — four digits, slash, two digits, slash, two digits, and
nothing else. -/
def isDateFormat : List Char → Bool
  | [a, b, c, d, s1, e, f, s2, g, h] =>
    a.isDigit && b.isDigit && c.isDigit && d.isDigit && s1 = '/' &&
    e.isDigit && f.isDigit && s2 = '/' && g.isDigit && h.isDigit
  | _ => false

/-! The labeled-field scrapers of the `pending_info` branch:
`backgroundInfo.match(/目標客單價(?:：|:)\s*([^\n]+)/i)` and the analogous
audience regex. -/

/-- Capture of `\s*([^\n]+)`: skip the longest whitespace run that still
leaves a non-newline character to start the capture (the greedy `\s*`
backtracks past `\n`s if needed), then capture greedily up to the newline. -/
def wsCapture : List Char → Option (List Char)
  | [] => none
  | c :: cs =>
    if isJsWs c then
      match wsCapture cs with
      | some cap => some cap
      | none =>
        if c = '\n' then none
        else some ((c :: cs).takeWhile (fun d => d ≠ '\n'))
    else if c = '\n' then none
    else some ((c :: cs).takeWhile (fun d => d ≠ '\n'))

/-- Leftmost match of `label(?:：|:)\s*([^\n]+)`, returning the capture. -/
def findLabeled (label : List Char) : List Char → Option (List Char)
  | [] => none
  | c :: cs =>
    if label.isPrefixOf (c :: cs) then
      match (c :: cs).drop label.length with
      | d :: r2 =>
        if d = '：' || d = ':' then
          match wsCapture r2 with
          | some cap => some cap
          | none => findLabeled label cs
        else findLabeled label cs
      | [] => findLabeled label cs
    else findLabeled label cs

/-! Reply and prompt text (the two long analysis prompts are represented by
their interpolation structure; the fixed instruction prose around the
interpolated values is abbreviated to leading sentences, since no claim
depends on the elided wording). -/

def ackInfoMsg : List Char := "收到您的餐廳資訊，正在產生優化建議...".data

def ackSummaryMsg : List Char := "收到統整指令，正在整理最新建議...".data

def ackExcelMsg : List Char := "收到 Excel 匯出指令，正在彙整報告並產生檔案...".data

def askCoachMsg : List Char := "好的，我們來準備結案報告。\n請問您的全名是？".data

def askDateMsg : List Char := "感謝您！\n請問本次專案的結案日期（格式：YYYY/MM/DD）是？".data

def dateFormatErrMsg : List Char :=
  "日期格式不正確，請使用 YYYY/MM/DD 格式，例如：2024/01/15。".data

def askRestaurantMsg : List Char := "感謝您！\n請問這次結案報告是關於哪間餐廳的？".data

def generatingMsg (restaurantName : List Char) : List Char :=
  "感謝您提供所有資訊！正在為「".data ++ restaurantName ++ "」產生結案報告...".data

def pleaseWaitMsg : List Char :=
  "目前正在為您產生結案報告中，請稍候片刻。完成後會通知您。".data

def reportNoMenuErrMsg : List Char :=
  "錯誤：找不到相關的菜單資訊，無法產生結案報告。".data

/-- The outer catch's reply: `處理你的訊息時發生錯誤: ${error.message}`. -/
def errReply (e : List Char) : List Char :=
  "處理你的訊息時發生錯誤: ".data ++ e

/-- The excel branch's failure reply, embedding the raw completion text. -/
def excelFailMsg (raw : List Char) : List Char :=
  "產生 Excel 檔案時發生錯誤，請查看後端日誌。 Gemini 回傳的原始資料為：\n```\n".data
    ++ raw ++ "\n```".data

/-- The resummarize instruction text (full literal, newline-delimited as in the
template string). -/
def summaryPromptText : List Char :=
  ("\n請根據以下所有對話紀錄與原始菜單內容，彙整一份最新版本的菜單優化建議報告。\n"
    ++ "請**嚴格依照**我們一開始討論的 Markdown 格式與結構要求輸出，包含所有區塊 (主打推薦、套餐、分類、小點、飲品、加購、策略總結等)。\n"
    ++ "請確保這是根據最新討論結果調整後的版本。**請勿在輸出中使用任何 emoji**。\n").data

/-- The full resummarize prompt:
`sanitize(summaryPromptText + "\n\n原始菜單內容:\n" + menuContent)`. -/
def summaryPrompt (menuContent : List Char) : List Char :=
  sanitizeStringForDB (summaryPromptText ++ "\n\n原始菜單內容:\n".data ++ menuContent)

/-- Leading sentence of the structured-export instruction; the embedded JSON
format example of the source literal is elided. -/
def excelPromptText : List Char :=
  "\n請根據以下所有對話紀錄與原始菜單內容，彙整一份最終的、完整的菜單優化建議報告。\n".data

/-- The full structured-export prompt. -/
def excelPrompt (menuContent : List Char) : List Char :=
  sanitizeStringForDB (excelPromptText ++ "\n\n原始菜單內容:\n".data ++ menuContent)

/-- Leading line of the initial-analysis persona template (rest elided). -/
def initialPromptHead : List Char := "\n# 角色 (Persona)\n".data

/-- Interpolation separator before the document text in the initial prompt. -/
def initialPromptTail : List Char := "\n---\n以下是菜單內容：\n".data

/-- The initial-analysis prompt: persona/task template with the background
info and the extracted document text interpolated, then sanitized. -/
def initialPrompt (backgroundInfo menuContent : List Char) : List Char :=
  sanitizeStringForDB
    (initialPromptHead ++ backgroundInfo ++ initialPromptTail ++ menuContent ++ "\n".data)

/-- The threaded-message handler (server.js lines 537-933) for a thread with
an existing Conversation: routes on `status`, producing the post-transaction
state and the ordered outward effects.  An exception anywhere rolls back the
in-flight transaction (state unchanged) and posts the outer catch's reply. -/
def handleMessage (o : Oracles) (db : DbState) (text : List Char) :
    DbState × List Effect :=
  let userMessageText := sanitizeStringForDB text
  let conv := db.conv
  if conv.status = "pending_info" then
    match conv.menuId with
    | none => (db, [.postMessage (errReply ("Menu ID missing for pending conversation.".data))])
    | some _ =>
      let targetAOV := (findLabeled ("目標客單價".data) userMessageText).map jsTrim
      let targetAudience := (findLabeled ("主要目標客群".data) userMessageText).map jsTrim
      match o.menuExtract with
      | none => (db, [.postMessage (errReply ("無法讀取先前上傳的菜單檔案內容。".data))])
      | some menuContent =>
        let prompt := initialPrompt userMessageText menuContent
        match o.gemini prompt [] with
        | none =>
          (db, [.postMessage ackInfoMsg, .geminiCall prompt [],
                .postMessage (errReply ("Gemini API call failed".data))])
        | some resp =>
          ({ conv := { conv with
                         status := "active"
                         targetAOV := targetAOV
                         targetAudience := targetAudience },
             messages := db.messages ++ [⟨.user, userMessageText⟩, ⟨.ai, resp⟩] },
           [.postMessage ackInfoMsg, .geminiCall prompt [], .postMessage resp])
  else if conv.status = "active" then
    if containsSummaryCmd userMessageText then
      match conv.menuId with
      | none =>
        (db, [.postMessage ackSummaryMsg,
              .postMessage (errReply ("Menu ID not found for this conversation.".data))])
      | some _ =>
        let menuContent := o.menuExtract.getD []
        let hist := (db.messages.filter fun m =>
          !(m.sender = .user && containsSummaryCmd m.content)).map toGTurn
        let prompt := summaryPrompt menuContent
        match o.gemini prompt hist with
        | none =>
          (db, [.postMessage ackSummaryMsg, .geminiCall prompt hist,
                .postMessage (errReply ("Gemini API call failed".data))])
        | some resp =>
          (db, [.postMessage ackSummaryMsg, .geminiCall prompt hist, .postMessage resp])
    else if lowerIncludes ("提供 csv".data) userMessageText ||
        lowerIncludes ("提供 excel".data) userMessageText then
      match conv.menuId with
      | none =>
        (db, [.postMessage ackExcelMsg,
              .postMessage (errReply ("Menu ID not found for this conversation.".data))])
      | some _ =>
        let menuContent := o.menuExtract.getD []
        let hist := db.messages.map toGTurn
        let prompt := excelPrompt menuContent
        match o.gemini prompt hist with
        | none =>
          (db, [.postMessage ackExcelMsg, .geminiCall prompt hist,
                .postMessage (errReply ("Gemini API call failed".data))])
        | some structuredText =>
          match generateExcelRows o.parseItems structuredText with
          | some rows =>
            (db, [.postMessage ackExcelMsg, .geminiCall prompt hist,
                  .uploadFile (o.menuFilenameBase ++ "_優化建議.xlsx".data) rows])
          | none =>
            (db, [.postMessage ackExcelMsg, .geminiCall prompt hist,
                  .postMessage (excelFailMsg structuredText)])
    else if lowerIncludes ("產出結案報告".data) userMessageText then
      match conv.menuId with
      | none => (db, [.postMessage reportNoMenuErrMsg])
      | some _ =>
        ({ db with conv := { conv with status := "pending_report_coach_name" } },
         [.postMessage askCoachMsg])
    else
      let hist := db.messages.map toGTurn
      match o.gemini userMessageText hist with
      | none =>
        (db, [.geminiCall userMessageText hist,
              .postMessage (errReply ("Gemini API call failed".data))])
      | some resp =>
        ({ db with
           messages := db.messages ++ [⟨.user, userMessageText⟩, ⟨.ai, resp⟩] },
         [.geminiCall userMessageText hist, .postMessage resp])
  else if conv.status = "pending_report_coach_name" then
    ({ db with conv := { conv with
                           status := "pending_report_end_date"
                           reportCoachName := some userMessageText } },
     [.postMessage askDateMsg])
  else if conv.status = "pending_report_end_date" then
    if isDateFormat userMessageText = false then
      (db, [.postMessage dateFormatErrMsg])
    else
      ({ db with conv := { conv with
                             status := "pending_report_restaurant_name"
                             reportEndDate := some userMessageText } },
       [.postMessage askRestaurantMsg])
  else if conv.status = "pending_report_restaurant_name" then
    ({ db with conv := { conv with
                           status := "generating_report"
                           reportRestaurantName := some userMessageText } },
     [.postMessage (generatingMsg userMessageText), .spawnReport])
  else if conv.status = "generating_report" then
    (db, [.postMessage pleaseWaitMsg])
  else (db, [])

/-! ### The closing-report generator `generateAndSendFinalReport`
(server.js lines 277-451) -/

/-- JavaScript truthiness of a nullable string column. -/
def jsTruthy : Option (List Char) → Bool
  | some s => !s.isEmpty
  | none => false

/-- JavaScript `text.replace(pat, repl)` with a global literal pattern: scan left to
right, replace each occurrence, continue after the replacement (replacements
are not rescanned). -/
def replaceAll (pat repl : List Char) : List Char → List Char
  | [] => []
  | c :: cs =>
    if h : pat ≠ [] ∧ pat.isPrefixOf (c :: cs) then
      repl ++ replaceAll pat repl ((c :: cs).drop pat.length)
    else c :: replaceAll pat repl cs
termination_by l => l.length
decreasing_by
  · simp only [List.length_drop, List.length_cons]
    have hp : pat.length ≠ 0 := fun h0 => h.1 (List.length_eq_zero.mp h0)
    omega
  · simp

/-- First alternative of `/```markdown\s*([\s\S]*?)\s*```/` at this position. -/
def tryMdFence (s : List Char) : Option (List Char) :=
  if ("```markdown".data).isPrefixOf s then
    match beforeFirstFence ((s.drop 11).dropWhile isJsWs) with
    | some pre => some (pre.rdropWhile isJsWs)
    | none => none
  else none

/-- Leftmost match of the markdown-fence regex. -/
def mdFenceSearch : List Char → Option (List Char)
  | [] => none
  | c :: cs =>
    match tryMdFence (c :: cs) with
    | some cap => some cap
    | none => mdFenceSearch cs

/-- Markdown extraction (server.js lines 409-416): the fenced content trimmed
when the regex matched with a truthy capture, else the whole response trimmed. -/
def extractMarkdownFenced (resp : List Char) : List Char :=
  match mdFenceSearch resp with
  | some cap => if cap = [] then jsTrim resp else jsTrim cap
  | none => jsTrim resp

/-- The Conversation columns read for the report
(`SELECT menu_id, report_coach_name, ...`). -/
structure ConvDetails where
  menuId : Option Nat
  coachName : Option (List Char)
  endDate : Option (List Char)
  restaurantName : Option (List Char)
  targetAOV : Option (List Char)
  targetAudience : Option (List Char)

/-- External collaborators of one generator run.  `none` for `convDetails`,
`menuRecord` (the menu row's filename) or `template` models the corresponding
read throwing; `menuExtract = none` models the OCR/file read throwing (caught
inline, the content stays empty); `gemini`, `docxOk`, `uploadOk` model the
completion call, the docx encoder and the Slack upload. -/
structure ReportOracles where
  convDetails : Option ConvDetails
  menuRecord : Option (List Char)
  menuExtract : Option (List Char)
  template : Option (List Char)
  gemini : List Char → Option (List Char)
  docxOk : List Char → Bool
  uploadOk : Bool

/-- The placeholder interpolation of `report_prompt_template.txt`
(server.js lines 395-404). -/
def buildReportPrompt (tmpl restName coachName endDate : List Char)
    (targetAOV targetAudience : Option (List Char))
    (filename menuContent s2 : List Char) : List Char :=
  let p := replaceAll ("\x7b\x7brestaurantName\x7d\x7d".data)
    (jsOr restName ("[未提供餐廳名稱]".data)) tmpl
  let p := replaceAll ("\x7b\x7bcoachName\x7d\x7d".data)
    (jsOr coachName ("[未提供教練名稱]".data)) p
  let p := replaceAll ("\x7b\x7bendDate\x7d\x7d".data)
    (jsOr endDate ("[未提供結案日期]".data)) p
  let p := replaceAll ("\x7b\x7btargetAOV\x7d\x7d".data)
    (jsOr (targetAOV.getD []) "[未提供目標客單價]".data) p
  let p := replaceAll ("\x7b\x7btargetAudience\x7d\x7d".data)
    (jsOr (targetAudience.getD []) "[未提供目標客群]".data) p
  let p := replaceAll ("\x7b\x7boriginalMenuFilename\x7d\x7d".data)
    (jsOr filename ("[未提供原始檔名]".data)) p
  let p := replaceAll ("\x7b\x7bmenuContentForPromptShort\x7d\x7d".data)
    (jsOr (menuContent.take 300) "[無原始菜單摘要]".data) p
  replaceAll ("\x7b\x7bsection2Content\x7d\x7d".data)
    (jsOr s2 ("[最終優化菜單內容未提供]".data)) p

/-- The `try` block of the generator: every failure point surfaces as the
thrown message (second component); the effects performed before the throw are
kept in order. -/
def reportTry (o : ReportOracles) (history : List Msg) :
    List Effect × Option (List Char) :=
  match o.convDetails with
  | none => ([], some ("Conversation details not found for report generation.".data))
  | some d =>
    if !(d.menuId.isSome && jsTruthy d.coachName && jsTruthy d.endDate &&
        jsTruthy d.restaurantName) then
      ([], some ("Missing critical information for report generation (menuId, coachName, endDate, or restaurantName).".data))
    else
      match o.menuRecord with
      | none => ([], some ("Menu file record not found for report.".data))
      | some filename =>
        let menuContent := o.menuExtract.getD []
        let restName := d.restaurantName.getD []
        let s2 := section2Content history filename menuContent
        match o.template with
        | none => ([], some ("無法讀取報告模板檔案，請聯繫管理員。".data))
        | some tmpl =>
          let prompt := sanitizeStringForDB (buildReportPrompt tmpl restName
            (d.coachName.getD []) (d.endDate.getD []) d.targetAOV d.targetAudience
            filename menuContent s2)
          match o.gemini prompt with
          | none => ([.geminiCall prompt []], some ("Gemini API call failed".data))
          | some resp =>
            let finalMarkdown := extractMarkdownFenced resp
            if o.docxOk finalMarkdown then
              if o.uploadOk then
                ([.geminiCall prompt [],
                  .uploadDocx (restName ++ "_結案報告.docx".data),
                  .postMessage ("已成功為「".data ++ restName
                    ++ "」產生 Word 格式結案報告並上傳。".data)], none)
              else ([.geminiCall prompt []], some ("file upload failed".data))
            else ([.geminiCall prompt []], some ("DOCX buffer generation failed.".data))

/-- Function `generateAndSendFinalReport`: run the `try` block; a thrown error is
caught and reported to the thread; the `finally` block then reverts the
Conversation status to `'active'` on every path. -/
def generateAndSendFinalReport (o : ReportOracles) (history : List Msg)
    (db : DbState) : DbState × List Effect :=
  let r := reportTry o history
  let effs :=
    match r.2 with
    | none => r.1
    | some e => r.1 ++ [.postMessage ("產生結案報告時發生錯誤：".data ++ e)]
  ({ db with conv := { db.conv with status := "active" } }, effs)

/-- Function `processAndStoreFile` (server.js lines 457-515): the Conversation row
created for a freshly uploaded document. -/
def processAndStoreFile (menuId : Nat) : Conversation :=
  { status := "pending_info"
    menuId := some menuId
    reportCoachName := none
    reportEndDate := none
    reportRestaurantName := none
    targetAOV := none
    targetAudience := none }

/-- The six status strings the core writes. -/
def statusSet : List String :=
  ["pending_info", "active", "pending_report_coach_name",
   "pending_report_end_date", "pending_report_restaurant_name",
   "generating_report"]

/-! ## Theorems -/

/-- No character of the replace pass's output lies in the stripped ranges:
every emoji occurrence starts a match and is consumed. -/
theorem stripStep_no_emoji (l : List Char) :
    ∀ (b : Bool) (c : Char), c ∈ stripStep l b → isEmojiChar c = false := by
  induction l with
  | nil => intro b c h; simp [stripStep] at h
  | cons a as ih =>
    intro b c h
    unfold stripStep at h
    split at h
    · exact ih true c h
    · split at h
      · exact ih true c h
      · rcases List.mem_cons.mp h with rfl | h3
        · rename_i h2; simpa using h2
        · exact ih false c h3

/-- The replace pass fixes emoji-free strings. -/
theorem stripStep_fixed (l : List Char) (h : ∀ c ∈ l, isEmojiChar c = false) :
    stripStep l false = l := by
  induction l with
  | nil => rfl
  | cons a as ih =>
    have ha := h a (List.mem_cons_self a as)
    have has : ∀ c ∈ as, isEmojiChar c = false := fun c hc =>
      h c (List.mem_cons_of_mem a hc)
    simp [stripStep, ha, ih has]

/-- Trimming only removes characters. -/
theorem mem_jsTrim {c : Char} {l : List Char} (h : c ∈ jsTrim l) : c ∈ l := by
  unfold jsTrim at h
  exact (List.dropWhile_sublist _).subset
    ((List.rdropWhile_prefix isJsWs (l.dropWhile isJsWs)).subset h)

/-- A prefix of a dropWhile-fixed list is itself dropWhile-fixed. -/
theorem dropWhile_prefix_fixed {p : Char → Bool} (m pre : List Char)
    (hm : List.dropWhile p m = m) (hpre : pre <+: m) :
    List.dropWhile p pre = pre := by
  cases pre with
  | nil => simp
  | cons a pre' =>
    obtain ⟨t, ht⟩ := hpre
    by_cases hp : p a = true
    · exfalso
      have h1 : List.dropWhile p m = List.dropWhile p (pre' ++ t) := by
        rw [← ht]; simp [List.dropWhile_cons, hp]
      have h2 : (List.dropWhile p (pre' ++ t)).length ≤ (pre' ++ t).length :=
        (List.dropWhile_sublist p).length_le
      have h3 : m.length = (pre' ++ t).length + 1 := by
        rw [← ht]; simp
      rw [hm] at h1
      have := congrArg List.length h1
      omega
    · simp [List.dropWhile_cons, hp]

/-- JavaScript `trim` is idempotent. -/
theorem jsTrim_idem (l : List Char) : jsTrim (jsTrim l) = jsTrim l := by
  unfold jsTrim
  have hmfix : List.dropWhile isJsWs (l.dropWhile isJsWs) = l.dropWhile isJsWs :=
    List.dropWhile_idempotent isJsWs l
  have hpre : (l.dropWhile isJsWs).rdropWhile isJsWs <+: l.dropWhile isJsWs :=
    List.rdropWhile_prefix isJsWs (l.dropWhile isJsWs)
  rw [dropWhile_prefix_fixed _ _ hmfix hpre,
    List.rdropWhile_idempotent isJsWs (l.dropWhile isJsWs)]

/-- C8: decorative stripping is idempotent — `removeEmojis (removeEmojis x) =
removeEmojis x` for every string — and on the concrete input `"🌟和牛漢堡"` it
returns `"和牛漢堡"`. -/
theorem c8_removeEmojis_idempotent :
    (∀ x : List Char, removeEmojis (removeEmojis x) = removeEmojis x) ∧
    removeEmojis ("🌟和牛漢堡".data) = "和牛漢堡".data := by
  constructor
  · intro x
    unfold removeEmojis
    have h1 : ∀ c ∈ jsTrim (stripStep x false), isEmojiChar c = false :=
      fun c hc => stripStep_no_emoji x false c (mem_jsTrim hc)
    rw [stripStep_fixed _ h1, jsTrim_idem]
  · decide

/-- Characterization of the digits-then-close scanner. -/
theorem digitsThenClose_iff (cs : List Char) :
    digitsThenClose cs = true ↔
    ∃ ds rest : List Char, (∀ c ∈ ds, c.isDigit = true) ∧ cs = ds ++ ')' :: rest := by
  induction cs with
  | nil =>
    constructor
    · intro h; simp [digitsThenClose] at h
    · rintro ⟨ds, rest, _, h⟩; simp at h
  | cons c cs' ih =>
    by_cases hc : c = ')'
    · subst hc
      constructor
      · intro _; exact ⟨[], cs', by simp, rfl⟩
      · intro _; simp [digitsThenClose]
    · constructor
      · intro h
        simp only [digitsThenClose, if_neg hc, Bool.and_eq_true] at h
        obtain ⟨h1, h2⟩ := h
        obtain ⟨ds, rest, hds, hcs⟩ := ih.mp h2
        refine ⟨c :: ds, rest, ?_, by simp [hcs]⟩
        intro x hx
        rcases List.mem_cons.mp hx with rfl | hx'
        · exact h1
        · exact hds x hx'
      · rintro ⟨ds, rest, hds, hcs⟩
        cases ds with
        | nil => simp at hcs; exact absurd hcs.1 hc
        | cons d ds' =>
          have hcd : c = d ∧ cs' = ds' ++ ')' :: rest := by simpa using hcs
          obtain ⟨rfl, hcs'⟩ := hcd
          have hd : c.isDigit = true := hds c (List.mem_cons_self c ds')
          have ht : digitsThenClose cs' = true :=
            ih.mpr ⟨ds', rest, fun x hx => hds x (List.mem_cons_of_mem c hx), hcs'⟩
          simp [digitsThenClose, if_neg hc, hd, ht]

/-- Characterization of a head match of `\(\+\d+\)`. -/
theorem startsPriced_iff (l : List Char) :
    startsPriced l = true ↔
    ∃ ds rest : List Char, ds ≠ [] ∧ (∀ c ∈ ds, c.isDigit = true) ∧
      l = ('(' :: '+' :: ds ++ [')']) ++ rest := by
  constructor
  · intro h
    cases l with
    | nil => simp [startsPriced] at h
    | cons a l1 =>
      cases l1 with
      | nil => simp [startsPriced] at h
      | cons b l2 =>
        cases l2 with
        | nil => simp [startsPriced] at h
        | cons c cs =>
          simp only [startsPriced, Bool.and_eq_true, decide_eq_true_eq] at h
          obtain ⟨⟨⟨ha, hb⟩, hc⟩, hd⟩ := h
          subst ha; subst hb
          obtain ⟨ds, rest, hds, hcs⟩ := (digitsThenClose_iff cs).mp hd
          subst hcs
          refine ⟨c :: ds, rest, by simp, ?_, by simp⟩
          intro x hx
          rcases List.mem_cons.mp hx with rfl | hx'
          · exact hc
          · exact hds x hx'
  · rintro ⟨ds, rest, hne, hds, rfl⟩
    cases ds with
    | nil => exact absurd rfl hne
    | cons d ds' =>
      have hd : d.isDigit = true := hds d (List.mem_cons_self d ds')
      have ht : digitsThenClose (ds' ++ ')' :: rest) = true :=
        (digitsThenClose_iff _).mpr
          ⟨ds', rest, fun x hx => hds x (List.mem_cons_of_mem d hx), rfl⟩
      have hshape : ('(' :: '+' :: (d :: ds') ++ [')']) ++ rest
          = '(' :: '+' :: d :: (ds' ++ ')' :: rest) := by simp
      rw [hshape]
      simp [startsPriced, hd, ht]

/-- Function `hasPricedTag` agrees with the spec's substring formulation. -/
theorem hasPricedTag_iff (t : List Char) :
    hasPricedTag t = true ↔ pricedSpec t := by
  induction t with
  | nil =>
    constructor
    · intro h; simp [hasPricedTag] at h
    · rintro ⟨ds, hne, _, s, t', hinf⟩; simp at hinf
  | cons c cs ih =>
    constructor
    · intro h
      have h' : startsPriced (c :: cs) = true ∨ hasPricedTag cs = true := by
        simpa [hasPricedTag] using h
      rcases h' with h1 | h2
      · obtain ⟨ds, rest, hne, hds, heq⟩ := (startsPriced_iff _).mp h1
        exact ⟨ds, hne, hds, [], rest, by simp [heq]⟩
      · obtain ⟨ds, hne, hds, s, t', hinf⟩ := ih.mp h2
        refine ⟨ds, hne, hds, c :: s, t', ?_⟩
        simpa using hinf
    · rintro ⟨ds, hne, hds, s, t', hinf⟩
      show (startsPriced (c :: cs) || hasPricedTag cs) = true
      cases s with
      | nil =>
        have h1 : startsPriced (c :: cs) = true := by
          apply (startsPriced_iff _).mpr
          refine ⟨ds, t', hne, hds, ?_⟩
          simpa using hinf.symm
        simp [h1]
      | cons a s' =>
        have h2 : hasPricedTag cs = true := by
          apply ih.mpr
          have hac : a = c ∧ s' ++ ('(' :: '+' :: ds ++ [')']) ++ t' = cs := by
            constructor
            · have := congrArg (fun l => l.head?) hinf
              simpa using this
            · have := congrArg List.tail hinf
              simpa using this
          exact ⟨ds, hne, hds, s', t', hac.2⟩
        simp [h2]

/-- Twelve `pricedTags[i] || ''` slot reads left-pack the kept tags. -/
theorem getD_range_map (l : List (List Char)) :
    ∀ n : ℕ, l.length ≤ n →
    (List.range n).map (fun i => l.getD i []) =
      l ++ List.replicate (n - l.length) ([] : List Char) := by
  induction l with
  | nil => intro n _; simp [List.getD]
  | cons a as ih =>
    intro n hn
    cases n with
    | zero => simp at hn
    | succ m =>
      rw [List.range_succ_eq_map, List.map_cons, List.map_map]
      have h1 : ((fun i => (a :: as).getD i []) ∘ Nat.succ) =
          fun i => as.getD i [] := by
        funext i
        simp [List.getD_cons_succ]
      rw [h1]
      have h2 : as.length ≤ m := by simpa using hn
      rw [ih m h2]
      simp [List.getD_cons_zero, Nat.succ_sub_succ]

/-- The kept tags of an item are at most twelve. -/
theorem keptTags_le_twelve (it : Item) :
    ((rawTags it).filter hasPricedTag).length ≤ 12 := by
  have h1 : ((rawTags it).filter hasPricedTag).length ≤ (rawTags it).length :=
    List.length_filter_le _ _
  have h2 : (rawTags it).length = 12 := by simp [rawTags]
  omega

/-- C3: when the completion response yields a capture that parses to a
non-empty list of N items, the export builds exactly the N rows
`items.map rowOfItem`, in input order; each row's twelve tag slots are the
priced tags of that item in their original relative order, left-packed, with
the remaining slots empty; and a tag is kept exactly when it contains a
substring matching `\(\+\d+\)`. -/
theorem c3_extract_round_trip (parseItems : List Char → Option (List Item))
    (s js : List Char) (items : List Item)
    (h1 : jsonMatchCapture s = some js) (h2 : parseItems js = some items)
    (h3 : items ≠ []) :
    generateExcelRows parseItems s = some (items.map rowOfItem) ∧
    (items.map rowOfItem).length = items.length ∧
    (∀ it ∈ items,
      (rowOfItem it).tags =
        (rawTags it).filter hasPricedTag ++
          List.replicate (12 - ((rawTags it).filter hasPricedTag).length)
            ([] : List Char)) ∧
    (∀ t : List Char, hasPricedTag t = true ↔ pricedSpec t) := by
  refine ⟨?_, by simp, ?_, hasPricedTag_iff⟩
  · unfold generateExcelRows
    rw [h1]
    simp [h2, h3]
  · intro it _
    show (List.range 12).map (fun i => ((rawTags it).filter hasPricedTag).getD i []) = _
    exact getD_range_map _ 12 (keptTags_le_twelve it)

/-- Concrete item used to witness C3. -/
def c3item : Item :=
  ⟨fun k =>
    if k = "商品名稱(半型字)" then ("🌟和牛漢堡".data)
    else if k = "價格" then ("350".data)
    else if k = "標籤1" then ("加起司(+30)".data)
    else if k = "標籤2" then ("加培根".data)
    else []⟩

/-- Concrete parse oracle used to witness C3. -/
def c3parse : List Char → Option (List Item) :=
  fun js => if js = "[1]".data then some [c3item] else none

/-- C3 witness: the theorem applied at a concrete fenced response, parse
oracle and one-item list. -/
theorem c3_extract_round_trip_witness :
    jsonMatchCapture ("```json [1] ```".data) = some ("[1]".data) ∧
    c3parse ("[1]".data) = some [c3item] ∧
    ([c3item] : List Item) ≠ [] ∧
    generateExcelRows c3parse ("```json [1] ```".data) = some ([c3item].map rowOfItem) :=
  ⟨by decide, rfl, by simp,
    (c3_extract_round_trip c3parse ("```json [1] ```".data) "[1]".data [c3item]
      (by decide) rfl (by simp)).1⟩

/-- C4 counterexample: on `"x[1] ```json\n[5]\n```"` a fenced JSON block is
present (the fence-only search returns its inner content `[5]`), yet the code's
single-regex search selects the earlier bracket span `[1] ```json\n[5]` —
the inner content of the fence is not what gets parsed, refuting the claimed
fence-first priority. -/
theorem c4_counterexample :
    jsonMatchCapture ("x[1] ```json\n[5]\n```".data) = some ("[1] ```json\n[5]".data) ∧
    fenceSearch ("x[1] ```json\n[5]\n```".data) = some ("[5]".data) ∧
    specCapture ("x[1] ```json\n[5]\n```".data) = some ("[5]".data) ∧
    ¬ jsonMatchCapture ("x[1] ```json\n[5]\n```".data)
        = specCapture ("x[1] ```json\n[5]\n```".data) :=
  ⟨by decide, by decide, by decide, by decide⟩

/-- C4 amended: the extraction takes the leftmost match of either form —
the fenced block is preferred only at equal start positions, so it is used
exactly when no bracket span starts before it; a bracket span starting earlier
wins even though a fence exists.  When neither matches, or the selected string
fails to parse, the export reports failure. -/
theorem c4_leftmost_match :
    (∀ s : List Char, jsonMatchCapture s =
      if noBracketBeforeFence s then specCapture s else bracketSearch s) ∧
    (∀ (parse : List Char → Option (List Item)) (s : List Char),
      jsonMatchCapture s = none → generateExcelRows parse s = none) ∧
    (∀ (parse : List Char → Option (List Item)) (s js : List Char),
      jsonMatchCapture s = some js → parse js = none →
      generateExcelRows parse s = none) := by
  refine ⟨?_, ?_, ?_⟩
  · intro s
    induction s with
    | nil => rfl
    | cons c cs ih =>
      rcases h1 : tryAlt1 (c :: cs) with _ | cap
      · rcases h2 : tryAlt2 (c :: cs) with _ | cap
        · have e1 : jsonMatchCapture (c :: cs) = jsonMatchCapture cs := by
            simp [jsonMatchCapture, h1, h2]
          have e2 : noBracketBeforeFence (c :: cs) = noBracketBeforeFence cs := by
            simp [noBracketBeforeFence, h1, h2]
          have e3 : fenceSearch (c :: cs) = fenceSearch cs := by
            simp [fenceSearch, h1]
          have e4 : bracketSearch (c :: cs) = bracketSearch cs := by
            simp [bracketSearch, h2]
          have e5 : specCapture (c :: cs) = specCapture cs := by
            unfold specCapture
            rw [e3, e4]
          rw [e1, e2, e4, e5, ih]
        · simp [jsonMatchCapture, noBracketBeforeFence, bracketSearch, h1, h2]
      · simp [jsonMatchCapture, noBracketBeforeFence, specCapture, fenceSearch, h1]
  · intro parse s h
    unfold generateExcelRows
    rw [h]
  · intro parse s js h1 h2
    unfold generateExcelRows
    rw [h1]
    simp [h2]

/-- Concrete parse oracle used to witness C4's failure clauses. -/
def c4parse : List Char → Option (List Item) := fun _ => none

/-- C4 witness: the amended theorem applied at a captureless input and at a
fenced input whose capture fails to parse. -/
theorem c4_leftmost_match_witness :
    generateExcelRows c4parse ("hello".data) = none ∧
    generateExcelRows c4parse ("```json [1] ```".data) = none :=
  ⟨c4_leftmost_match.2.1 c4parse ("hello".data) (by decide),
   c4_leftmost_match.2.2 c4parse ("```json [1] ```".data) "[1]".data (by decide) rfl⟩

/-- C1: every run of the closing-report generator — successful completion, a
throw while gathering data, a throw from the completion-service call, or a
failed document build — ends with the Conversation status set back to
`'active'` by the `finally`-equivalent block; the conversation never remains
in `generating_report` when the run ends. -/
theorem c1_report_reverts_to_active (o : ReportOracles) (history : List Msg)
    (db : DbState) :
    (generateAndSendFinalReport o history db).1.conv.status = "active" ∧
    (generateAndSendFinalReport o history db).1.conv.status ≠ "generating_report" := by
  constructor
  · rfl
  · intro h
    simp [generateAndSendFinalReport] at h

/-- Conversation fixture awaiting the closing date, used by C2. -/
def c2db : DbState :=
  { conv := { status := "pending_report_end_date", menuId := some 1,
              reportCoachName := some ("王教練".data), reportEndDate := none,
              reportRestaurantName := none, targetAOV := none,
              targetAudience := none },
    messages := [] }

/-- Oracle fixture used by C2. -/
def c2oracles : Oracles :=
  { gemini := fun _ _ => none, menuExtract := none, menuFilenameBase := [],
    parseItems := fun _ => none }

/-- C2 counterexample: `"2024/13/40"` satisfies the purely syntactic
`^\d{4}\/\d{2}\/\d{2}$` check, so — contrary to the claim — the handler stores
it and advances the state to `pending_report_restaurant_name` instead of
leaving the state unchanged with a format-error reply. -/
theorem c2_counterexample :
    isDateFormat ("2024/13/40".data) = true ∧
    (handleMessage c2oracles c2db ("2024/13/40".data)).1.conv.status
      = "pending_report_restaurant_name" ∧
    ¬ (handleMessage c2oracles c2db ("2024/13/40".data)).1 = c2db :=
  ⟨by decide, by decide, by decide⟩

/-- C2 amended: in `pending_report_end_date`, text failing the syntactic
`YYYY/MM/DD` digit pattern leaves the state unchanged and sends the
format-error reply; text matching the pattern — calendar-invalid strings such
as `"2024/13/40"` included — is stored as the closing date and the state
advances to `pending_report_restaurant_name`. -/
theorem c2_date_branch (o : Oracles) (db : DbState) (text : List Char)
    (hst : db.conv.status = "pending_report_end_date") :
    (isDateFormat (sanitizeStringForDB text) = false →
      handleMessage o db text = (db, [.postMessage dateFormatErrMsg])) ∧
    (isDateFormat (sanitizeStringForDB text) = true →
      handleMessage o db text =
        ({ db with conv := { db.conv with
              status := "pending_report_restaurant_name"
              reportEndDate := some (sanitizeStringForDB text) } },
         [.postMessage askRestaurantMsg])) := by
  constructor
  · intro hd
    simp [handleMessage, hst, hd]
  · intro hd
    simp [handleMessage, hst, hd]

/-- C2 witness: the amended theorem applied at the concrete date
`"2024/01/15"`. -/
theorem c2_date_branch_witness :
    handleMessage c2oracles c2db ("2024/01/15".data) =
      ({ c2db with conv := { c2db.conv with
            status := "pending_report_restaurant_name"
            reportEndDate := some (sanitizeStringForDB ("2024/01/15".data)) } },
       [.postMessage askRestaurantMsg]) :=
  (c2_date_branch c2oracles c2db ("2024/01/15".data) rfl).2 (by decide)

/-- Every handler run either leaves the status column untouched or writes one
of the five literal statuses appearing in its UPDATE statements. -/
theorem handleMessage_status (o : Oracles) (db : DbState) (text : List Char) :
    (handleMessage o db text).1.conv.status = db.conv.status ∨
    (handleMessage o db text).1.conv.status = "active" ∨
    (handleMessage o db text).1.conv.status = "pending_report_coach_name" ∨
    (handleMessage o db text).1.conv.status = "pending_report_end_date" ∨
    (handleMessage o db text).1.conv.status = "pending_report_restaurant_name" ∨
    (handleMessage o db text).1.conv.status = "generating_report" := by
  simp only [handleMessage]
  (repeat' split) <;> simp

/-- Only the `pending_info` and `active` branches of the handler ever insert
message rows. -/
theorem handleMessage_messages (o : Oracles) (db : DbState) (text : List Char) :
    (handleMessage o db text).1.messages = db.messages ∨
    db.conv.status = "pending_info" ∨ db.conv.status = "active" := by
  simp only [handleMessage]
  (repeat' split) <;> simp_all

/-- C9: every status value the core writes belongs to the six-value set —
the handler preserves membership, a Conversation is created in
`pending_info`, and the report generator always ends in `active`. -/
theorem c9_status_enum_closed :
    (∀ (o : Oracles) (db : DbState) (text : List Char),
        db.conv.status ∈ statusSet →
        (handleMessage o db text).1.conv.status ∈ statusSet) ∧
    (∀ menuId : Nat, (processAndStoreFile menuId).status ∈ statusSet) ∧
    (∀ (o : ReportOracles) (history : List Msg) (db : DbState),
        (generateAndSendFinalReport o history db).1.conv.status ∈ statusSet) := by
  refine ⟨?_, ?_, ?_⟩
  · intro o db text hs
    rcases handleMessage_status o db text with h | h
    · rw [h]; exact hs
    · rcases h with h | h | h | h | h <;> rw [h] <;> simp [statusSet]
  · intro menuId
    simp [processAndStoreFile, statusSet]
  · intro o history db
    simp [generateAndSendFinalReport, statusSet]

/-- Oracle fixture used by C9. -/
def c9oracles : Oracles :=
  { gemini := fun _ _ => none, menuExtract := none, menuFilenameBase := [],
    parseItems := fun _ => none }

/-- Conversation fixture used by C9. -/
def c9db : DbState :=
  { conv := { status := "active", menuId := some 1, reportCoachName := none,
              reportEndDate := none, reportRestaurantName := none,
              targetAOV := none, targetAudience := none },
    messages := [] }

/-- C9 witness: the closure part applied at a concrete active conversation. -/
theorem c9_status_enum_closed_witness :
    (handleMessage c9oracles c9db ("你好".data)).1.conv.status ∈ statusSet :=
  c9_status_enum_closed.1 c9oracles c9db ("你好".data) (by decide)

/-- C10: while the conversation sits in any closing-report sub-flow state, a
handler run appends no message row — the history is unchanged — and the
spawned report generator never touches the message history either. -/
theorem c10_report_subflow_no_turns (o : Oracles) (db : DbState)
    (text : List Char)
    (hst : db.conv.status = "pending_report_coach_name" ∨
           db.conv.status = "pending_report_end_date" ∨
           db.conv.status = "pending_report_restaurant_name" ∨
           db.conv.status = "generating_report") :
    (handleMessage o db text).1.messages = db.messages ∧
    (∀ (ro : ReportOracles) (history : List Msg),
      (generateAndSendFinalReport ro history db).1.messages = db.messages) := by
  constructor
  · rcases handleMessage_messages o db text with h | h | h
    · exact h
    · rcases hst with h' | h' | h' | h' <;> rw [h'] at h <;> simp at h
    · rcases hst with h' | h' | h' | h' <;> rw [h'] at h <;> simp at h
  · intro ro history
    rfl

/-- Oracle fixture used by C10. -/
def c10oracles : Oracles :=
  { gemini := fun _ _ => none, menuExtract := none, menuFilenameBase := [],
    parseItems := fun _ => none }

/-- Conversation fixture used by C10. -/
def c10db : DbState :=
  { conv := { status := "generating_report", menuId := some 1,
              reportCoachName := some ("王教練".data),
              reportEndDate := some ("2024/01/15".data),
              reportRestaurantName := some ("小館".data),
              targetAOV := none, targetAudience := none },
    messages := [⟨.user, "背景".data⟩, ⟨.ai, "建議".data⟩] }

/-- C10 witness: the theorem applied at a concrete generating-report state. -/
theorem c10_report_subflow_no_turns_witness :
    (handleMessage c10oracles c10db ("進度如何".data)).1.messages = c10db.messages :=
  (c10_report_subflow_no_turns c10oracles c10db ("進度如何".data) (by decide)).1

/-- C6: on the resummarize command in `Active`, the handler posts the
generated summary as the reply, sends the completion service the stored
history with the user command turns filtered out, and persists no Turn for
the exchange: the database state is returned unchanged. -/
theorem c6_summary_no_persist (o : Oracles) (db : DbState) (text : List Char)
    (mid : Nat) (resp : List Char)
    (hst : db.conv.status = "active")
    (hcmd : containsSummaryCmd (sanitizeStringForDB text) = true)
    (hmid : db.conv.menuId = some mid)
    (hg : o.gemini (summaryPrompt (o.menuExtract.getD []))
        ((db.messages.filter fun m =>
          !(m.sender = .user && containsSummaryCmd m.content)).map toGTurn)
      = some resp) :
    handleMessage o db text =
      (db, [.postMessage ackSummaryMsg,
            .geminiCall (summaryPrompt (o.menuExtract.getD []))
              ((db.messages.filter fun m =>
                !(m.sender = .user && containsSummaryCmd m.content)).map toGTurn),
            .postMessage resp]) := by
  simp [handleMessage, hst, hcmd, hmid, hg, -Bool.not_and]

/-- Oracle fixture used by C6. -/
def c6oracles : Oracles :=
  { gemini := fun _ _ => some ("最新彙整建議".data), menuExtract := some ("菜單A".data),
    menuFilenameBase := "menu".data, parseItems := fun _ => none }

/-- Conversation fixture used by C6. -/
def c6db : DbState :=
  { conv := { status := "active", menuId := some 1, reportCoachName := none,
              reportEndDate := none, reportRestaurantName := none,
              targetAOV := none, targetAudience := none },
    messages := [⟨.user, "背景".data⟩, ⟨.ai, "建議A".data⟩] }

/-- C6 witness: the theorem applied at a concrete active conversation. -/
theorem c6_summary_no_persist_witness :
    handleMessage c6oracles c6db ("請統整建議".data) =
      (c6db, [.postMessage ackSummaryMsg,
              .geminiCall (summaryPrompt (c6oracles.menuExtract.getD []))
                ((c6db.messages.filter fun m =>
                  !(m.sender = .user && containsSummaryCmd m.content)).map toGTurn),
              .postMessage ("最新彙整建議".data)]) :=
  c6_summary_no_persist c6oracles c6db ("請統整建議".data) 1 ("最新彙整建議".data)
    rfl (by decide) rfl rfl

/-- C5: when the excel-export completion response yields no capture, a
capture that fails to parse, or an empty item list, the export returns no
file to the caller, and the handler replies with the raw offending response
embedded in the failure message instead of uploading; the state is unchanged. -/
theorem c5_export_failure_reply (o : Oracles) (db : DbState) (text : List Char)
    (mid : Nat) (structuredText : List Char)
    (hst : db.conv.status = "active")
    (hnot : containsSummaryCmd (sanitizeStringForDB text) = false)
    (hcmd : (lowerIncludes ("提供 csv".data) (sanitizeStringForDB text) ||
             lowerIncludes ("提供 excel".data) (sanitizeStringForDB text)) = true)
    (hmid : db.conv.menuId = some mid)
    (hg : o.gemini (excelPrompt (o.menuExtract.getD [])) (db.messages.map toGTurn)
      = some structuredText)
    (hfail : jsonMatchCapture structuredText = none ∨
       (∃ js, jsonMatchCapture structuredText = some js ∧ o.parseItems js = none) ∨
       (∃ js, jsonMatchCapture structuredText = some js ∧
         o.parseItems js = some [])) :
    generateExcelRows o.parseItems structuredText = none ∧
    handleMessage o db text =
      (db, [.postMessage ackExcelMsg,
            .geminiCall (excelPrompt (o.menuExtract.getD [])) (db.messages.map toGTurn),
            .postMessage (excelFailMsg structuredText)]) ∧
    structuredText <:+: excelFailMsg structuredText := by
  have hrows : generateExcelRows o.parseItems structuredText = none := by
    unfold generateExcelRows
    rcases hfail with h | ⟨js, h1, h2⟩ | ⟨js, h1, h2⟩
    · rw [h]
    · rw [h1]; simp [h2]
    · rw [h1]; simp [h2]
  refine ⟨hrows, ?_, ?_⟩
  · simp [handleMessage, hst, hcmd, hnot, hmid, hg, hrows, -Bool.not_and]
  · exact ⟨"產生 Excel 檔案時發生錯誤，請查看後端日誌。 Gemini 回傳的原始資料為：\n```\n".data,
      "\n```".data, by simp [excelFailMsg]⟩

/-- Oracle fixture used by C5: the completion returns prose, not JSON. -/
def c5oracles : Oracles :=
  { gemini := fun _ _ => some ("抱歉，我無法輸出。".data), menuExtract := some ("菜單A".data),
    menuFilenameBase := "menu".data, parseItems := fun _ => none }

/-- Conversation fixture used by C5. -/
def c5db : DbState :=
  { conv := { status := "active", menuId := some 1, reportCoachName := none,
              reportEndDate := none, reportRestaurantName := none,
              targetAOV := none, targetAudience := none },
    messages := [] }

/-- C5 witness: the theorem applied at a concrete non-JSON completion. -/
theorem c5_export_failure_reply_witness :
    generateExcelRows c5oracles.parseItems ("抱歉，我無法輸出。".data) = none ∧
    handleMessage c5oracles c5db ("請提供 excel".data) =
      (c5db, [.postMessage ackExcelMsg,
              .geminiCall (excelPrompt (c5oracles.menuExtract.getD []))
                (c5db.messages.map toGTurn),
              .postMessage (excelFailMsg ("抱歉，我無法輸出。".data))]) :=
  ⟨(c5_export_failure_reply c5oracles c5db ("請提供 excel".data) 1
      "抱歉，我無法輸出。".data rfl (by decide) (by decide) rfl rfl
      (Or.inl (by decide))).1,
   (c5_export_failure_reply c5oracles c5db ("請提供 excel".data) 1
      "抱歉，我無法輸出。".data rfl (by decide) (by decide) rfl rfl
      (Or.inl (by decide))).2.1⟩

/-- History fixture used by C7's counterexample: the newest command turn is
answered by an empty assistant turn, and a later assistant turn exists. -/
def c7hist : List Msg :=
  [⟨.user, "請統整建議".data⟩, ⟨.ai, []⟩, ⟨.user, "再調整一下".data⟩,
   ⟨.ai, "最終建議內容".data⟩]

/-- C7 counterexample: the newest command turn is immediately followed by an
assistant turn (the pair exists, with empty text), yet the heuristic does not
select that turn's text — JavaScript falsiness makes it fall through to the
newest assistant turn of the whole history. -/
theorem c7_counterexample :
    afterLastCmd c7hist = some [] ∧
    selectFinalMarkdown c7hist = "最終建議內容".data ∧
    ¬ selectFinalMarkdown c7hist = (afterLastCmd c7hist).getD [] :=
  ⟨by decide, by decide, by decide⟩

/-- If no assistant turn exists, the pair loop finds nothing. -/
theorem afterLastCmd_none (h : List Msg) (hna : ∀ m ∈ h, m.sender ≠ .ai) :
    afterLastCmd h = none := by
  induction h with
  | nil => rfl
  | cons m rest ih =>
    unfold afterLastCmd
    split
    · exact ih fun x hx => hna x (List.mem_cons_of_mem m hx)
    · split
      · rename_i hrest hm
        cases rest with
        | nil => rfl
        | cons next rest' =>
          have : next.sender ≠ .ai :=
            hna next (List.mem_cons_of_mem m (List.mem_cons_self next rest'))
          simp [this]
      · rfl

/-- If no assistant turn exists, the fallback loop finds nothing. -/
theorem lastAiContent_none (h : List Msg) (hna : ∀ m ∈ h, m.sender ≠ .ai) :
    lastAiContent h = none := by
  induction h with
  | nil => rfl
  | cons m rest ih =>
    unfold lastAiContent
    rw [ih fun x hx => hna x (List.mem_cons_of_mem m hx)]
    have : m.sender ≠ .ai := hna m (List.mem_cons_self m rest)
    simp [this]

/-- C7 amended: the heuristic selects the assistant turn immediately following
the newest command turn when that pair exists *and its text is non-empty*
(an empty text is falsy and falls through); otherwise it selects the newest
assistant turn of the whole history; with no assistant turn at all, the
section-2 content is the clearly-marked placeholder embedding the document
name and a 500-character excerpt; and the produced advice block is never
empty. -/
theorem c7_advice_recovery :
    (∀ (h : List Msg) (t : List Char), afterLastCmd h = some t → t ≠ [] →
        selectFinalMarkdown h = t) ∧
    (∀ (h : List Msg) (t : List Char), (afterLastCmd h).getD [] = [] →
        lastAiContent h = some t → selectFinalMarkdown h = t) ∧
    (∀ (h : List Msg) (fn mc : List Char), (∀ m ∈ h, m.sender ≠ .ai) →
        section2Content h fn mc = placeholderStr fn mc ∧
        fn <:+: placeholderStr fn mc ∧ mc.take 500 <:+: placeholderStr fn mc) ∧
    (∀ (h : List Msg) (fn mc : List Char), section2Content h fn mc ≠ []) := by
  refine ⟨?_, ?_, ?_, ?_⟩
  · intro h t ha ht
    unfold selectFinalMarkdown
    rw [ha]
    simp [ht]
  · intro h t ha hl
    unfold selectFinalMarkdown
    rw [hl]
    rcases he : afterLastCmd h with _ | u
    · simp
    · rw [he] at ha
      simp at ha
      simp [ha]
  · intro h fn mc hna
    have h1 : afterLastCmd h = none := afterLastCmd_none h hna
    have h2 : lastAiContent h = none := lastAiContent_none h hna
    have h3 : selectFinalMarkdown h = [] := by
      unfold selectFinalMarkdown
      rw [h1, h2]
      rfl
    have h4 : processedMarkdown h = [] := by
      unfold processedMarkdown
      rw [h3]
      rfl
    refine ⟨?_, ?_, ?_⟩
    · unfold section2Content
      rw [h4]
      simp
    · exact ⟨"[AI請注意：此處應填入根據對話歷史記錄和原始菜單分析得出的最終優化菜單建議。內容應為完整的 Markdown 格式菜單結構，包含所有主打推薦、套餐、分類品項等。請確保這是使用者最終同意的版本。原始菜單檔名：".data,
        "，部分內容：".data ++ mc.take 500 ++ "...]".data, by simp [placeholderStr]⟩
    · exact ⟨"[AI請注意：此處應填入根據對話歷史記錄和原始菜單分析得出的最終優化菜單建議。內容應為完整的 Markdown 格式菜單結構，包含所有主打推薦、套餐、分類品項等。請確保這是使用者最終同意的版本。原始菜單檔名：".data ++ fn ++ "，部分內容：".data,
        "...]".data, by simp [placeholderStr]⟩
  · intro h fn mc
    simp only [section2Content]
    split
    · rename_i hcond
      exact hcond.1
    · simp [placeholderStr]

/-- C7 witness: the amended theorem's first arm applied at a concrete history
whose command turn is followed by a non-empty assistant turn. -/
theorem c7_advice_recovery_witness :
    selectFinalMarkdown [⟨.user, "請統整建議".data⟩, ⟨.ai, "建議A".data⟩]
      = "建議A".data :=
  c7_advice_recovery.1 [⟨.user, "請統整建議".data⟩, ⟨.ai, "建議A".data⟩]
    "建議A".data (by decide) (by decide)

end MenuAI
